import Mathlib

/-!
Shallow embedding of `yahoo_downloader.py` (yahoo_finance_jp), and proofs
about its behavior.

Modeling conventions:
- Dates (`pd.Timestamp` values) are modeled as integers with the timestamp
  order; only their linear order matters to the code under study.
- Numeric price data is modeled by `PFloat`: finite values are exact
  rationals, and the IEEE special values produced by numpy division by zero
  (`inf`, `-inf`, `nan`) are explicit constructors.  Rounding and overflow
  of finite arithmetic are not modeled; IEEE signed zero is collapsed to 0.
- A pandas dataframe of price data is a `Frame`, a list of `Row` records.
  The source's column-wise elementwise assignments are modeled row-wise,
  which is equivalent for elementwise operations on equal-length columns.
  Dropping the `Adj Close` column sets the `AdjClose` field of every row to
  `none`.
- Python object identity (needed for the `inplace`/`copy` semantics of
  `adjust_yahoo_ohlc` and for the dataframe cache of the session object) is
  modeled by an explicit heap: a `List Frame` addressed by indices, where
  `df.copy()` allocates a fresh index and in-place mutation overwrites an
  existing index.
- Network effects are abstracted by oracle functions: `attempts` maps the
  index of a GET attempt to its result, `pages` maps a page number to the
  result of fetching and extracting that page, `fetchSeq` maps the index of
  a whole collection run to the resulting organized frame, `outcome` maps
  the position of an instrument in a batch to the result of its download.
  Alongside each result the embedding returns instrumentation (number of
  GET attempts made, list of page numbers fetched, count of collection
  runs, list of instruments attempted) so that claims about "no network
  activity" or "page k+1 is never fetched" are statable.
- A Python exception that propagates out of a function is an `Except.error`
  result; an uncaught exception aborting a loop is the corresponding
  `.error` returned from the loop's embedding.
-/

namespace YahooJp

/-- Numeric values as produced by the pandas/numpy float operations used in
the source.  Finite values are exact rationals; the special values that
numpy division by zero produces are explicit. -/
inductive PFloat where
  | finite (q : ℚ)
  | inf
  | neginf
  | nan
deriving DecidableEq, Repr

/-- numpy elementwise multiplication on `PFloat` values. -/
def PFloat.mul : PFloat → PFloat → PFloat
  | .nan, _ => .nan
  | _, .nan => .nan
  | .finite a, .finite b => .finite (a * b)
  | .finite a, .inf => if a = 0 then .nan else if 0 < a then .inf else .neginf
  | .finite a, .neginf => if a = 0 then .nan else if 0 < a then .neginf else .inf
  | .inf, .finite b => if b = 0 then .nan else if 0 < b then .inf else .neginf
  | .neginf, .finite b => if b = 0 then .nan else if 0 < b then .neginf else .inf
  | .inf, .inf => .inf
  | .inf, .neginf => .neginf
  | .neginf, .inf => .neginf
  | .neginf, .neginf => .inf

/-- numpy elementwise true division on `PFloat` values.  Division of a
nonzero finite value by zero yields a signed infinity, `0 / 0` yields `nan`;
no exception is ever raised (numpy emits only a runtime warning). -/
def PFloat.div : PFloat → PFloat → PFloat
  | .nan, _ => .nan
  | _, .nan => .nan
  | .finite a, .finite b =>
      if b = 0 then (if a = 0 then .nan else if 0 < a then .inf else .neginf)
      else .finite (a / b)
  | .finite _, .inf => .finite 0
  | .finite _, .neginf => .finite 0
  | .inf, .finite b => if 0 ≤ b then .inf else .neginf
  | .neginf, .finite b => if 0 ≤ b then .neginf else .inf
  | .inf, _ => .nan
  | .neginf, _ => .nan

/-- Whether a `PFloat` is a finite number (neither infinite nor `nan`). -/
def PFloat.isFinite : PFloat → Bool
  | .finite _ => true
  | _ => false

/-- One row of a price dataframe.  The columns are those set by
`organize_df`: `Date, Open, High, Low, Close, Volume, Adj Close`.  The
`AdjClose` field is `none` when the `Adj Close` column has been dropped by
`adjust_yahoo_ohlc`. -/
structure Row where
  Date : Int
  Open : PFloat
  High : PFloat
  Low : PFloat
  Close : PFloat
  Volume : PFloat
  AdjClose : Option PFloat
deriving DecidableEq, Repr

/-- A price dataframe: a list of rows. -/
abbrev Frame := List Row

/-- The per-record content of `adjust_yahoo_ohlc` (source lines 42-46).
The column-wise pandas assignments are modeled row-wise, in source order:
`Open`, `High` and `Low` are updated before `Close`, so every ratio uses
the original `Close` value; then `Close` is set to `Adj Close` and the
`Adj Close` column is dropped.  The source's docstring requires the input
to have an `Adj Close` column, so the `getD nan` default is never exercised
on intended inputs. -/
def adjustRow (r : Row) : Row :=
  let adj := r.AdjClose.getD PFloat.nan
  let r1 := { r with Open := (r.Open.mul adj).div r.Close }
  let r2 := { r1 with High := (r1.High.mul adj).div r1.Close }
  let r3 := { r2 with Low := (r2.Low.mul adj).div r2.Close }
  let r4 := { r3 with Close := adj }
  { r4 with AdjClose := none }

/-- The dataframe-level content of the adjustment transform: elementwise
over all rows. -/
def adjust_frame (df : Frame) : Frame :=
  df.map adjustRow

/-- `adjust_yahoo_ohlc(df, inplace)` over an explicit heap of dataframes.
`df` is a reference (heap index).  With `inplace = false` the source first
takes `df = df.copy()` and mutates the copy, so a fresh frame is allocated
and the original heap cell is untouched; with `inplace = true` the passed
frame itself is mutated and the same reference is returned. -/
def adjust_yahoo_ohlc (heap : List Frame) (df : Nat) (inplace : Bool) :
    List Frame × Nat :=
  if inplace = false then
    (heap ++ [adjust_frame (heap.getD df [])], heap.length)
  else
    (heap.set df (adjust_frame (heap.getD df [])), df)

/-- Result of one `s.get(url, timeout=...)` attempt, as observed by
`_request_stock_data`: a response with the ok status, a response with any
other status code, or a `requests.exceptions.Timeout` raised by the call. -/
inductive AttemptResult where
  | success (body : String)
  | badStatus (code : Nat)
  | timeout
deriving DecidableEq, Repr

/-- Failure modes of `_request_stock_data`: a propagating
`requests.exceptions.Timeout`, or the `IOError("Requests Error: http bad
status")` raised after the retry loop ends. -/
inductive FetchErr where
  | timeoutRaised
  | httpBadStatus
deriving DecidableEq, Repr

/-- The retry loop of `_request_stock_data` (source lines 282-289).
`i` is the index of the next attempt, `remaining` the number of loop
iterations left.  A success status returns the body at once; any other
status falls through to the next iteration; a raised timeout is NOT caught
anywhere in the loop, so it aborts the whole call.  The second component of
the result is the total number of GET attempts issued. -/
def request_stock_data_go (attempts : Nat → AttemptResult) :
    Nat → Nat → Except FetchErr String × Nat
  | i, 0 => (.error .httpBadStatus, i)
  | i, remaining + 1 =>
    match attempts i with
    | .success body => (.ok body, i + 1)
    | .badStatus _ => request_stock_data_go attempts (i + 1) remaining
    | .timeout => (.error .timeoutRaised, i + 1)

/-- `_request_stock_data`: `for i in range(retry_count + 1)` around single
GET attempts, then `raise IOError` if the loop finishes. -/
def request_stock_data (attempts : Nat → AttemptResult) (retryCount : Nat) :
    Except FetchErr String × Nat :=
  request_stock_data_go attempts 0 (retryCount + 1)

/-- Failure modes of fetching and extracting one page
(`_get_stock_single_table`): a network failure propagating from
`_request_stock_data`, or the `IOError("data style does not match standard
format")` raised when the page does not contain exactly one data table. -/
inductive PageErr where
  | network (e : FetchErr)
  | formatMismatch
deriving DecidableEq, Repr

/-- Failure modes of `_get_stock_all_tables`: a propagating page failure,
or the `ValueError` raised by `pd.concat` on an empty list of tables. -/
inductive CollectErr where
  | pageFail (e : PageErr)
  | concatEmptyList
deriving DecidableEq, Repr

/-- The `while p < 200` loop of `_get_stock_all_tables` (source lines
255-269).  `pages` maps a page number to the result of
`_get_stock_single_table` for that page; `fuel` is the number of loop
iterations left before `p` reaches 200.  Each iteration fetches page `p`
(recorded in the `fetched` instrumentation list), breaks out of the loop if
the page has no rows (discarding the empty table), and otherwise appends
the table and moves on.  A page failure propagates, aborting the loop. -/
def collect_go {α : Type} (pages : Nat → Except PageErr (List α)) :
    Nat → Nat → List (List α) → List Nat →
    Except PageErr (List (List α)) × List Nat
  | 0, _, acc, fetched => (.ok acc, fetched)
  | fuel + 1, p, acc, fetched =>
    match pages p with
    | .error e => (.error e, fetched ++ [p])
    | .ok t =>
      if t.length = 0 then (.ok acc, fetched ++ [p])
      else collect_go pages fuel (p + 1) (acc ++ [t]) (fetched ++ [p])

/-- `_get_stock_all_tables`: run the page loop starting at page 1 (at most
199 iterations), then `pd.concat(table_list)` — which raises `ValueError`
when `table_list` is empty, and otherwise concatenates the tables in page
order.  The second component is the list of page numbers actually
fetched. -/
def get_stock_all_tables {α : Type} (pages : Nat → Except PageErr (List α)) :
    Except CollectErr (List α) × List Nat :=
  match collect_go pages 199 1 [] [] with
  | (.error e, fetched) => (.error (.pageFail e), fetched)
  | (.ok acc, fetched) =>
    if acc.isEmpty then (.error .concatEmptyList, fetched)
    else (.ok acc.flatten, fetched)

/-- The error raised by `YahooJpStockHistorical.__init__` when the end date
is not strictly later than the start date (`ValueError("end date should be
later than start date.")`). -/
inductive InitError where
  | invalidQuery
deriving DecidableEq, Repr

/-- The state a successfully constructed `YahooJpStockHistorical` object
holds after `__init__` (source lines 144-164), with the tunables set to the
source's literal defaults. -/
structure StockHistorical where
  symbolCode : Int
  dateStart : Int
  dateEnd : Int
  interval : String
  pauseSingleTable : ℚ
  dfCached : Option Frame
  pauseForRetry : ℚ
  retryCount : Nat
  requestTimeout : Nat
deriving DecidableEq, Repr

/-- `YahooJpStockHistorical.__init__`.  `end` defaults to today's date,
`start` defaults to `end - period_days`; if the end date is not strictly
later than the start date the constructor raises, so the caller receives no
object.  No network activity occurs: the construction depends on no fetch
oracle at all. -/
def yahooJpStockHistorical_init (symbolCode : Int) (startArg endArg : Option Int)
    (periodDays : Int) (today : Int) : Except InitError StockHistorical :=
  let e := endArg.getD today
  let s := startArg.getD (e - periodDays)
  if e ≤ s then .error .invalidQuery
  else .ok ⟨symbolCode, s, e, "d", 1 / 100, none, 1 / 1000, 2, 5⟩

/-- Instrumented state of one `YahooJpStockHistorical` session for the
caching claims: `heap` is the Python object heap of frames, `cachedRef` the
reference stored in `_df_cached` (or `none`), and `fetchCount` the number
of whole network collection runs (`_get_stock_all_tables` calls) issued so
far. -/
structure SessionH where
  heap : List Frame
  cachedRef : Option Nat
  fetchCount : Nat
deriving DecidableEq, Repr

/-- `get_stockdata` (source lines 210-214): if `_df_cached` is `None` or
`force_request` is true, run a full collection (the `fetchSeq` oracle gives
the organized frame of the `n`-th collection run), cache a reference to the
new frame and return it; otherwise return the cached reference with no
network activity at all. -/
def get_stockdata (fetchSeq : Nat → Frame) (forceRequest : Bool) (s : SessionH) :
    Nat × SessionH :=
  match s.cachedRef, forceRequest with
  | some r, false => (r, s)
  | _, _ =>
      let df := fetchSeq s.fetchCount
      let r := s.heap.length
      (r, ⟨s.heap ++ [df], some r, s.fetchCount + 1⟩)

/-- `write_csv` (source lines 303-306): `df = self.get_stockdata()` (with
`force_request` left at its default `False`), then, when `adjust_ohlc` is
true, `df = adjust_yahoo_ohlc(df)` with `inplace` left at its default
`False`.  The first component of the result is the frame written to the
csv file; the csv serialization itself is a sink and is not modeled. -/
def write_csv (fetchSeq : Nat → Frame) (adjustOhlc : Bool) (s : SessionH) :
    Frame × SessionH :=
  let step := get_stockdata fetchSeq false s
  let r := step.1
  let s1 := step.2
  if adjustOhlc = true then
    let adjusted := adjust_yahoo_ohlc s1.heap r false
    (adjusted.1.getD adjusted.2 [], ⟨adjusted.1, s1.cachedRef, s1.fetchCount⟩)
  else
    (s1.heap.getD r [], s1)

/-- Outcome of one instrument's `write_csv` download inside
`yahoo_multi_download`, restricted to the outcomes the batch loop handles:
success, a `requests.exceptions.Timeout`, or an `IOError` (which is how
both a network failure after exhausted retries and a format mismatch
surface). -/
inductive DlOutcome where
  | success
  | timeoutExc
  | ioError
deriving DecidableEq, Repr

/-- The batch loop of `yahoo_multi_download` (source lines 88-104).
`outcome` maps the position of an instrument in the list to the result of
its download attempt.  A timeout or an `IOError` is caught, a warning is
issued and the symbol is appended to the failed list; otherwise the symbol
is appended to the passed list.  The loop never exits early: the third
accumulator records every instrument actually attempted. -/
def multi_go (outcome : Nat → DlOutcome) :
    List Int → Nat → List Int → List Int → List Int →
    List Int × List Int × List Int
  | [], _, passed, failed, attempted => (passed, failed, attempted)
  | s :: rest, idx, passed, failed, attempted =>
    match outcome idx with
    | .success => multi_go outcome rest (idx + 1) (passed ++ [s]) failed (attempted ++ [s])
    | .timeoutExc => multi_go outcome rest (idx + 1) passed (failed ++ [s]) (attempted ++ [s])
    | .ioError => multi_go outcome rest (idx + 1) passed (failed ++ [s]) (attempted ++ [s])

/-- The dictionary `yahoo_multi_download` returns:
`{"request": all symbols, "passed": succeeded, "failed": failed}`. -/
structure BatchResult where
  request : List Int
  passed : List Int
  failed : List Int
deriving DecidableEq, Repr

/-- `yahoo_multi_download`: run the batch loop over the symbol list and
package the result.  The second component is the instrumentation list of
instruments actually attempted. -/
def yahoo_multi_download (outcome : Nat → DlOutcome) (symbolList : List Int) :
    BatchResult × List Int :=
  let res := multi_go outcome symbolList 0 [] [] []
  (⟨symbolList, res.1, res.2.1⟩, res.2.2)

/-- Spec-side description of which symbols end up in the passed list: the
symbols whose download succeeds, in input order. -/
def passedSpec (outcome : Nat → DlOutcome) : Nat → List Int → List Int
  | _, [] => []
  | idx, s :: rest =>
    match outcome idx with
    | .success => s :: passedSpec outcome (idx + 1) rest
    | .timeoutExc => passedSpec outcome (idx + 1) rest
    | .ioError => passedSpec outcome (idx + 1) rest

/-- Spec-side description of which symbols end up in the failed list: the
symbols whose download fails with a caught exception, in input order. -/
def failedSpec (outcome : Nat → DlOutcome) : Nat → List Int → List Int
  | _, [] => []
  | idx, s :: rest =>
    match outcome idx with
    | .success => failedSpec outcome (idx + 1) rest
    | .timeoutExc => s :: failedSpec outcome (idx + 1) rest
    | .ioError => s :: failedSpec outcome (idx + 1) rest

/-- Batch outcome oracle for the spec's three-instrument example: the
second instrument (position 1) fails with an `IOError` (format mismatch),
the others succeed. -/
def exampleOutcome : Nat → DlOutcome :=
  fun i => if i = 1 then .ioError else .success

/-- A concrete unadjusted row with zero close, used for the
division-by-zero analysis. -/
def zeroCloseRow : Row :=
  ⟨0, .finite 100, .finite 110, .finite 90, .finite 0, .finite 1000, some (.finite 95)⟩

/-- A concrete unadjusted row whose close equals its adjusted close. -/
def noopRow : Row :=
  ⟨0, .finite 100, .finite 110, .finite 90, .finite 95, .finite 1000, some (.finite 95)⟩

/-- A concrete session state holding one cached frame. -/
def cachedSession : SessionH :=
  ⟨[[noopRow]], some 0, 1⟩

/-- A concrete attempt oracle on which every GET attempt returns a
non-success status. -/
def allBadAttempts : Nat → AttemptResult :=
  fun _ => .badStatus 500

/-- A concrete three-page source: pages 1 and 2 have rows, page 3 (and
every later page) is empty. -/
def examplePages : Nat → Except PageErr (List Nat) :=
  fun p => if p = 1 then .ok [10, 11] else if p = 2 then .ok [20] else .ok []

/-- `getD` on an append, at an index below the length of the first list. -/
theorem listGetD_append_left {α : Type} (l l2 : List α) (d : α) :
    ∀ n, n < l.length → (l ++ l2).getD n d = l.getD n d := by
  induction l with
  | nil => intro n hn; simp at hn
  | cons x xs ih =>
    intro n hn
    cases n with
    | zero => rfl
    | succ m => simpa using ih m (by simpa using hn)

/-- `getD` of a list extended by one element, at the old length. -/
theorem listGetD_append_self {α : Type} (l : List α) (x d : α) :
    (l ++ [x]).getD l.length d = x := by
  induction l with
  | nil => rfl
  | cons y ys ih => exact ih

/-- `getD` after `set` at the same valid index. -/
theorem listGetD_set_self {α : Type} (x d : α) :
    ∀ (l : List α) (n : Nat), n < l.length → (l.set n x).getD n d = x := by
  intro l
  induction l with
  | nil => intro n hn; simp at hn
  | cons y ys ih =>
    intro n hn
    cases n with
    | zero => rfl
    | succ m => simpa using ih m (by simpa using hn)

/-- Claim C7: constructing a `YahooJpStockHistorical` with an end date
strictly later than the start date succeeds and yields the full object
state (with an empty cache); constructing with an end date not strictly
later than the start date fails immediately with the invalid-query error,
so no object is produced — and the constructor consults no network oracle
at all. -/
theorem init_date_validation (symbolCode startDate endDate periodDays today : Int) :
    (startDate < endDate →
      yahooJpStockHistorical_init symbolCode (some startDate) (some endDate) periodDays today =
        .ok ⟨symbolCode, startDate, endDate, "d", 1 / 100, none, 1 / 1000, 2, 5⟩) ∧
    (endDate ≤ startDate →
      yahooJpStockHistorical_init symbolCode (some startDate) (some endDate) periodDays today =
        .error .invalidQuery) := by
  constructor
  · intro h
    simp [yahooJpStockHistorical_init, not_le.mpr h]
  · intro h
    simp [yahooJpStockHistorical_init, h]

/-- Witness for C7 at concrete dates. -/
theorem init_date_validation_witness :
    ((0 : Int) < 10 ∧
      yahooJpStockHistorical_init 7203 (some 0) (some 10) 10 100 =
        .ok ⟨7203, 0, 10, "d", 1 / 100, none, 1 / 1000, 2, 5⟩) ∧
    ((10 : Int) ≤ 10 ∧
      yahooJpStockHistorical_init 7203 (some 10) (some 10) 10 100 =
        .error .invalidQuery) :=
  ⟨⟨by decide, (init_date_validation 7203 0 10 10 100).1 (by decide)⟩,
   ⟨by decide, (init_date_validation 7203 10 10 10 100).2 (by decide)⟩⟩

/-- Counterexample to claim C1 as stated: adjusting a dataset that
contains a record with zero close does not fail with any error;
`adjust_yahoo_ohlc` returns normally and the resulting record's open,
high and low fields are infinite. -/
theorem adjust_zero_close_cex :
    adjust_yahoo_ohlc [[zeroCloseRow]] 0 false =
      ([[zeroCloseRow], [⟨0, .inf, .inf, .inf, .finite 95, .finite 1000, none⟩]], 1) := by
  norm_num [adjust_yahoo_ohlc, adjust_frame, adjustRow, zeroCloseRow, PFloat.mul, PFloat.div]

/-- Claim C1 amended: for a record whose close is zero (with finite open,
high, low and adjusted close), `adjust_yahoo_ohlc` does not fail; the
open, high and low fields of the output record follow the IEEE
division-by-zero semantics — a signed infinity, or `nan` when the
numerator is also zero — and are never finite, and close becomes the
adjusted close with the `Adj Close` column dropped. -/
theorem adjust_zero_close_yields_nonfinite (r : Row) (o hi lo a : ℚ)
    (hO : r.Open = .finite o) (hH : r.High = .finite hi) (hL : r.Low = .finite lo)
    (hC : r.Close = .finite 0) (hA : r.AdjClose = some (.finite a)) :
    (adjustRow r).Open =
      (if o * a = 0 then PFloat.nan else if 0 < o * a then PFloat.inf else PFloat.neginf) ∧
    (adjustRow r).High =
      (if hi * a = 0 then PFloat.nan else if 0 < hi * a then PFloat.inf else PFloat.neginf) ∧
    (adjustRow r).Low =
      (if lo * a = 0 then PFloat.nan else if 0 < lo * a then PFloat.inf else PFloat.neginf) ∧
    (adjustRow r).Open.isFinite = false ∧
    (adjustRow r).High.isFinite = false ∧
    (adjustRow r).Low.isFinite = false ∧
    (adjustRow r).Close = .finite a ∧
    (adjustRow r).AdjClose = none := by
  refine ⟨?_, ?_, ?_, ?_, ?_, ?_, ?_, ?_⟩ <;>
    simp only [adjustRow, hO, hH, hL, hC, hA, PFloat.mul, PFloat.div, Option.getD_some] <;>
    norm_num <;>
    split_ifs <;>
    simp [PFloat.isFinite]

/-- Witness for the amended C1 at a concrete record. -/
theorem adjust_zero_close_yields_nonfinite_witness :
    zeroCloseRow.Close = PFloat.finite 0 ∧
    (adjustRow zeroCloseRow).Open.isFinite = false :=
  ⟨rfl,
   (adjust_zero_close_yields_nonfinite zeroCloseRow 100 110 90 95
      rfl rfl rfl rfl rfl).2.2.2.1⟩

/-- Claim C9: for a record whose close equals its adjusted close and is a
nonzero finite value (with finite open, high and low), the price
adjustment is a no-op on the open, high, low and close fields. -/
theorem adjust_noop_close_eq_adjclose (r : Row) (q o hi lo : ℚ) (hq : q ≠ 0)
    (hC : r.Close = .finite q) (hA : r.AdjClose = some (.finite q))
    (hO : r.Open = .finite o) (hH : r.High = .finite hi) (hL : r.Low = .finite lo) :
    (adjustRow r).Open = r.Open ∧ (adjustRow r).High = r.High ∧
    (adjustRow r).Low = r.Low ∧ (adjustRow r).Close = r.Close := by
  simp [adjustRow, hC, hA, hO, hH, hL, PFloat.mul, PFloat.div, hq,
    mul_div_cancel_right₀]

/-- Witness for C9 at a concrete record with close = adjusted close = 95. -/
theorem adjust_noop_close_eq_adjclose_witness :
    (95 : ℚ) ≠ 0 ∧
    ((adjustRow noopRow).Open = noopRow.Open ∧ (adjustRow noopRow).High = noopRow.High ∧
     (adjustRow noopRow).Low = noopRow.Low ∧ (adjustRow noopRow).Close = noopRow.Close) :=
  ⟨by decide,
   adjust_noop_close_eq_adjclose noopRow 95 100 110 90 (by decide) rfl rfl rfl rfl rfl⟩

/-- Claim C8: with `inplace = false`, `adjust_yahoo_ohlc` operates on a
duplicate — the caller's original frame (all rows, all fields, including
the `Adj Close` values) is unchanged on the heap, and a distinct fresh
reference holding the adjusted frame is returned; with `inplace = true`
the caller's frame itself is overwritten with the adjusted data and the
same reference is returned. -/
theorem adjust_inplace_frame_effect (heap : List Frame) (r : Nat) (hr : r < heap.length) :
    (adjust_yahoo_ohlc heap r false).1.getD r [] = heap.getD r [] ∧
    (adjust_yahoo_ohlc heap r false).2 ≠ r ∧
    (adjust_yahoo_ohlc heap r false).1.getD (adjust_yahoo_ohlc heap r false).2 [] =
      adjust_frame (heap.getD r []) ∧
    (adjust_yahoo_ohlc heap r true).2 = r ∧
    (adjust_yahoo_ohlc heap r true).1.getD r [] = adjust_frame (heap.getD r []) := by
  refine ⟨?_, ?_, ?_, ?_, ?_⟩
  · simpa [adjust_yahoo_ohlc] using listGetD_append_left heap _ [] r hr
  · show heap.length ≠ r
    omega
  · simp [adjust_yahoo_ohlc, listGetD_append_self]
  · rfl
  · exact listGetD_set_self (adjust_frame (heap.getD r [])) [] heap r hr

/-- Witness for C8 at a concrete one-frame heap. -/
theorem adjust_inplace_frame_effect_witness :
    0 < ([[noopRow]] : List Frame).length ∧
    (adjust_yahoo_ohlc [[noopRow]] 0 false).1.getD 0 [] = [noopRow] :=
  ⟨by decide, ((adjust_inplace_frame_effect [[noopRow]] 0 (by decide)).1).trans rfl⟩

/-- If all attempts from `i` for `remaining` steps return a non-success
status, the retry loop runs them all and then raises the bad-status
IOError. -/
theorem request_go_all_bad (attempts : Nat → AttemptResult) :
    ∀ (remaining i : Nat),
      (∀ j, j < remaining → ∃ c, attempts (i + j) = .badStatus c) →
      request_stock_data_go attempts i remaining = (.error .httpBadStatus, i + remaining) := by
  intro remaining
  induction remaining with
  | zero => intro i _; simp [request_stock_data_go]
  | succ n ih =>
    intro i h
    obtain ⟨c, hc⟩ := h 0 (Nat.succ_pos n)
    rw [Nat.add_zero] at hc
    have hrest := ih (i + 1) (fun j hj => by
      obtain ⟨c2, hc2⟩ := h (j + 1) (by omega)
      exact ⟨c2, by rw [show i + 1 + j = i + (j + 1) from by omega]; exact hc2⟩)
    simp only [request_stock_data_go, hc, hrest, Prod.mk.injEq]
    exact ⟨trivial, by omega⟩

/-- If attempt `j` (within the loop bound) raises a timeout and all
earlier attempts return non-success statuses, the loop aborts right after
attempt `j` with the propagating timeout exception. -/
theorem request_go_timeout (attempts : Nat → AttemptResult) :
    ∀ (j remaining i : Nat), j < remaining →
      attempts (i + j) = .timeout →
      (∀ m, m < j → ∃ c, attempts (i + m) = .badStatus c) →
      request_stock_data_go attempts i remaining = (.error .timeoutRaised, i + j + 1) := by
  intro j
  induction j with
  | zero =>
    intro remaining i hlt ht _
    cases remaining with
    | zero => omega
    | succ n =>
      rw [Nat.add_zero] at ht
      simp [request_stock_data_go, ht]
  | succ k ih =>
    intro remaining i hlt ht hbad
    cases remaining with
    | zero => omega
    | succ n =>
      obtain ⟨c, hc⟩ := hbad 0 (Nat.succ_pos k)
      rw [Nat.add_zero] at hc
      have hrest := ih n (i + 1) (by omega)
        (by rw [show i + 1 + k = i + (k + 1) from by omega]; exact ht)
        (fun m hm => by
          obtain ⟨c2, hc2⟩ := hbad (m + 1) (by omega)
          exact ⟨c2, by rw [show i + 1 + m = i + (m + 1) from by omega]; exact hc2⟩)
      simp only [request_stock_data_go, hc, hrest, Prod.mk.injEq]
      exact ⟨trivial, by omega⟩

/-- Counterexample to claim C2 as stated: with the source's default retry
count 2, a run whose first attempt times out fails immediately — the
timeout propagates after a single GET attempt, rather than being consumed
as one retry with further attempts made. -/
theorem request_timeout_immediate_cex :
    request_stock_data (fun _ => .timeout) 2 = (.error .timeoutRaised, 1) := rfl

/-- Claim C2 amended: in `_request_stock_data`, only a non-success HTTP
status consumes a retry — if every one of the `retryCount + 1` attempts
returns a non-success status, the fetcher fails with the bad-status
IOError after exactly `retryCount + 1` attempts; a timeout, by contrast,
is immediately fatal: the first attempt that raises a timeout aborts the
call with the propagating timeout exception, with no further attempt
issued. -/
theorem request_retry_semantics (attempts : Nat → AttemptResult) (retryCount : Nat) :
    ((∀ j, j ≤ retryCount → ∃ c, attempts j = .badStatus c) →
      request_stock_data attempts retryCount = (.error .httpBadStatus, retryCount + 1)) ∧
    (∀ j, j ≤ retryCount → attempts j = .timeout →
      (∀ m, m < j → ∃ c, attempts m = .badStatus c) →
      request_stock_data attempts retryCount = (.error .timeoutRaised, j + 1)) := by
  constructor
  · intro h
    have hrun := request_go_all_bad attempts (retryCount + 1) 0 (fun j hj => by
      simpa using h j (by omega))
    simpa [request_stock_data] using hrun
  · intro j hj ht hbad
    have hrun := request_go_timeout attempts j (retryCount + 1) 0 (by omega)
      (by simpa using ht) (fun m hm => by simpa using hbad m hm)
    simpa [request_stock_data] using hrun

/-- Witness for the amended C2: three bad-status attempts with the default
retry count 2 exhaust the loop and raise the bad-status IOError. -/
theorem request_retry_semantics_witness :
    (∀ j, j ≤ 2 → ∃ c, allBadAttempts j = .badStatus c) ∧
    request_stock_data allBadAttempts 2 = (.error .httpBadStatus, 3) :=
  ⟨fun _ _ => ⟨500, rfl⟩,
   (request_retry_semantics allBadAttempts 2).1 (fun _ _ => ⟨500, rfl⟩)⟩

/-- The page-loop invariant: if pages `p, p+1, ...` return the non-empty
tables `ts` in order and the page after them returns an empty table, the
loop appends exactly `ts` to the accumulator, fetches exactly pages
`p .. p + ts.length`, and stops. -/
theorem collect_go_spec {α : Type} (pages : Nat → Except PageErr (List α)) :
    ∀ (ts : List (List α)) (fuel p : Nat) (acc : List (List α)) (fetched : List Nat),
      ts.length < fuel →
      (∀ i, (hi : i < ts.length) →
        pages (p + i) = .ok (ts.get ⟨i, hi⟩) ∧ ts.get ⟨i, hi⟩ ≠ []) →
      pages (p + ts.length) = .ok [] →
      collect_go pages fuel p acc fetched =
        (.ok (acc ++ ts), fetched ++ List.range' p (ts.length + 1)) := by
  intro ts
  induction ts with
  | nil =>
    intro fuel p acc fetched hfuel _ hend
    cases fuel with
    | zero => omega
    | succ n =>
      rw [List.length_nil, Nat.add_zero] at hend
      simp [collect_go, hend]
  | cons t ts2 ih =>
    intro fuel p acc fetched hfuel hmid hend
    cases fuel with
    | zero => omega
    | succ n =>
      obtain ⟨hp, hne⟩ := hmid 0 (Nat.succ_pos ts2.length)
      rw [Nat.add_zero] at hp
      have hpt : pages p = .ok t := hp
      have hnet : t ≠ [] := hne
      have hlen : ¬ t.length = 0 := fun h0 => hnet (List.length_eq_zero.mp h0)
      have hrest := ih n (p + 1) (acc ++ [t]) (fetched ++ [p])
        (by simpa using hfuel)
        (fun i hi => by
          have := hmid (i + 1) (by simpa using Nat.succ_lt_succ hi)
          rw [show p + (i + 1) = p + 1 + i from by omega] at this
          exact this)
        (by rw [show p + 1 + ts2.length = p + (t :: ts2).length from by simp; omega]
            exact hend)
      simp only [collect_go, hpt, if_neg hlen, hrest, Prod.mk.injEq]
      constructor
      · simp
      · simp [List.range'_succ, List.append_assoc]

/-- Counterexample to claim C3 as stated: when the very first page already
yields zero rows (the `k = 1` instance of the claim), the collection does
not return the empty concatenation — `pd.concat` on the empty table list
raises a ValueError.  Page 1 is fetched and page 2 never is. -/
theorem collect_empty_first_page_cex :
    @get_stock_all_tables Nat (fun _ => .ok []) = (.error .concatEmptyList, [1]) := rfl

/-- Claim C3 amended: if pages `1 .. k-1` each yield at least one row,
page `k` yields zero rows, and `2 ≤ k ≤ 199`, then `_get_stock_all_tables`
fetches exactly pages `1 .. k` (so page `k+1` is never fetched), discards
page `k`'s empty table, and returns the concatenation of the rows of pages
`1 .. k-1` in page order.  (When the very first page is already empty —
`k = 1` — the function instead raises the `pd.concat` empty-list
ValueError; see the counterexample.) -/
theorem collect_stops_at_first_empty {α : Type} (pages : Nat → Except PageErr (List α))
    (ts : List (List α)) (k : Nat) (hk2 : 2 ≤ k) (hk : k ≤ 199)
    (hlen : ts.length = k - 1)
    (hmid : ∀ i, (hi : i < ts.length) →
      pages (1 + i) = .ok (ts.get ⟨i, hi⟩) ∧ ts.get ⟨i, hi⟩ ≠ [])
    (hend : pages k = .ok []) :
    get_stock_all_tables pages = (.ok ts.flatten, List.range' 1 k) := by
  have h1 : collect_go pages 199 1 [] [] = (.ok ts, List.range' 1 (ts.length + 1)) := by
    have := collect_go_spec pages ts 199 1 [] [] (by omega) hmid
      (by rw [show 1 + ts.length = k from by omega]; exact hend)
    simpa using this
  have hts : ¬ ts.isEmpty = true := by
    cases ts with
    | nil => simp at hlen; omega
    | cons a as => simp
  simp only [get_stock_all_tables, h1, if_neg hts]
  rw [show ts.length + 1 = k from by omega]

/-- Witness for the amended C3: the concrete three-page source stops at
the empty page 3 and returns the rows of pages 1 and 2 in order, having
fetched exactly pages 1, 2 and 3. -/
theorem collect_stops_at_first_empty_witness :
    examplePages 3 = .ok [] ∧
    get_stock_all_tables examplePages = (.ok [10, 11, 20], [1, 2, 3]) :=
  ⟨rfl, by
    have h := collect_stops_at_first_empty examplePages [[10, 11], [20]] 3
      (by omega) (by omega) rfl
      (by
        intro i hi
        have h2 : i < 2 := by simpa using hi
        interval_cases i <;> exact ⟨rfl, fun h => nomatch h⟩)
      rfl
    simpa using h⟩

/-- Claim C6: `get_stockdata` with a populated cache and
`force_request = false` returns the cached frame reference with the state
— in particular the collection-run count — unchanged, so no network
activity occurs; from a fresh session, a first unforced call runs
collection 0 and caches its frame, a second unforced call returns that
cache with no further run (exactly one fetch sequence for the two calls),
and a subsequent forced call runs collection 1 and overwrites the cache
with the new frame. -/
theorem get_stockdata_caching (fetchSeq : Nat → Frame) :
    (∀ (s : SessionH) (r : Nat), s.cachedRef = some r →
      get_stockdata fetchSeq false s = (r, s)) ∧
    get_stockdata fetchSeq false ⟨[], none, 0⟩ = (0, ⟨[fetchSeq 0], some 0, 1⟩) ∧
    get_stockdata fetchSeq false ⟨[fetchSeq 0], some 0, 1⟩ = (0, ⟨[fetchSeq 0], some 0, 1⟩) ∧
    get_stockdata fetchSeq true ⟨[fetchSeq 0], some 0, 1⟩ =
      (1, ⟨[fetchSeq 0, fetchSeq 1], some 1, 2⟩) := by
  refine ⟨?_, rfl, rfl, rfl⟩
  intro s r hr
  simp [get_stockdata, hr]

/-- Witness for C6 at a concrete cached session. -/
theorem get_stockdata_caching_witness :
    cachedSession.cachedRef = some 0 ∧
    get_stockdata (fun _ => []) false cachedSession = (0, cachedSession) :=
  ⟨rfl, (get_stockdata_caching (fun _ => [])).1 cachedSession 0 rfl⟩

/-- Claim C10: exporting with `write_csv(adjust_ohlc=true)` leaves the
session's cached dataset untouched — the written frame is the adjustment
of a fresh copy of the cache, while the cache reference, the cached frame
content (including its `Adj Close` values) and the collection-run count
are unchanged, and a subsequent `get_stockdata(force_request=false)`
still returns the same unadjusted cached frame. -/
theorem write_csv_preserves_cache (fetchSeq : Nat → Frame) (s : SessionH) (r : Nat)
    (hr : s.cachedRef = some r) (hlt : r < s.heap.length) :
    (write_csv fetchSeq true s).1 = adjust_frame (s.heap.getD r []) ∧
    (write_csv fetchSeq true s).2.cachedRef = some r ∧
    (write_csv fetchSeq true s).2.fetchCount = s.fetchCount ∧
    (write_csv fetchSeq true s).2.heap.getD r [] = s.heap.getD r [] ∧
    get_stockdata fetchSeq false (write_csv fetchSeq true s).2 =
      (r, (write_csv fetchSeq true s).2) := by
  have hget : get_stockdata fetchSeq false s = (r, s) := by
    simp [get_stockdata, hr]
  refine ⟨?_, ?_, ?_, ?_, ?_⟩
  · simp [write_csv, hget, adjust_yahoo_ohlc, listGetD_append_self]
  · simp [write_csv, hget, adjust_yahoo_ohlc, hr]
  · simp [write_csv, hget, adjust_yahoo_ohlc]
  · have hkeep := listGetD_append_left s.heap
      [adjust_frame (s.heap.getD r [])] ([] : Frame) r hlt
    simpa [write_csv, hget, adjust_yahoo_ohlc] using hkeep
  · simp [write_csv, hget, adjust_yahoo_ohlc, get_stockdata, hr]

/-- Witness for C10 at a concrete cached session. -/
theorem write_csv_preserves_cache_witness :
    cachedSession.cachedRef = some 0 ∧ 0 < cachedSession.heap.length ∧
    (write_csv (fun _ => []) true cachedSession).2.heap.getD 0 [] =
      cachedSession.heap.getD 0 [] :=
  ⟨rfl, by decide,
   (write_csv_preserves_cache (fun _ => []) cachedSession 0 rfl (by decide)).2.2.2.1⟩

/-- The batch loop unrolled: the accumulators are extended by the
spec-side passed/failed partitions, and every symbol is attempted. -/
theorem multi_go_spec (outcome : Nat → DlOutcome) :
    ∀ (syms : List Int) (idx : Nat) (passed failed attempted : List Int),
      multi_go outcome syms idx passed failed attempted =
        (passed ++ passedSpec outcome idx syms,
         failed ++ failedSpec outcome idx syms,
         attempted ++ syms) := by
  intro syms
  induction syms with
  | nil => intro idx p f a; simp [multi_go, passedSpec, failedSpec]
  | cons s rest ih =>
    intro idx p f a
    cases h : outcome idx <;>
      simp [multi_go, passedSpec, failedSpec, h, ih, List.append_assoc]

/-- The passed and failed lists together are a permutation of the
requested symbol list. -/
theorem passed_failed_perm (outcome : Nat → DlOutcome) :
    ∀ (syms : List Int) (idx : Nat),
      (passedSpec outcome idx syms ++ failedSpec outcome idx syms).Perm syms := by
  intro syms
  induction syms with
  | nil => intro idx; simp [passedSpec, failedSpec]
  | cons s rest ih =>
    intro idx
    cases h : outcome idx <;> simp only [passedSpec, failedSpec, h, List.cons_append]
    · exact List.Perm.cons s (ih (idx + 1))
    · exact List.perm_middle.trans (List.Perm.cons s (ih (idx + 1)))
    · exact List.perm_middle.trans (List.Perm.cons s (ih (idx + 1)))

/-- Claim C4: a batch run never aborts early — every requested instrument
is attempted; an instrument whose download fails with a caught error (a
timeout, or the IOError carrying a network failure or format mismatch)
goes to the failed list, every other instrument to the passed list, and
the two lists together partition the requested list.  In particular, for
the spec's example `[a, b, c]` with `b` failing with a format-mismatch
IOError, the result is `{request = [a, b, c], passed = [a, c],
failed = [b]}` and `c` is still fetched. -/
theorem multi_download_partition :
    (∀ (outcome : Nat → DlOutcome) (symbolList : List Int),
      yahoo_multi_download outcome symbolList =
        (⟨symbolList, passedSpec outcome 0 symbolList, failedSpec outcome 0 symbolList⟩,
          symbolList) ∧
      (passedSpec outcome 0 symbolList ++ failedSpec outcome 0 symbolList).Perm symbolList) ∧
    yahoo_multi_download exampleOutcome [9020, 7203, 9022] =
      (⟨[9020, 7203, 9022], [9020, 9022], [7203]⟩, [9020, 7203, 9022]) := by
  refine ⟨fun outcome symbolList => ⟨?_, passed_failed_perm outcome symbolList 0⟩, ?_⟩
  · simp [yahoo_multi_download, multi_go_spec]
  · rfl

end YahooJp
